import Mathlib

/-!
Verification development for the CrowdPulse repository.

The frontend (Next.js) client code under src/ is embedded directly:
the API URL layer (lib/api.js), the SSE consumer of runPipeline, the
FetchButton state, the usage page, the charts and lib/utils.js.
Backend computation (the divergence/confidence engine, the velocity
computer, the quota read endpoint and the pipeline orchestrator) is not
under src/; those parts are modelled from the spec and are marked as
such in their doc comments.
-/

/-! ## Generic string helpers (kernel-friendly replacements for the
JavaScript string operations used by the client code) -/

/-- Substring test: does the character list contain the given pattern
as a contiguous sublist?  Models the JavaScript includes check used to
inspect request URLs. -/
def containsSub : List Char → List Char → Bool
  | [], sub => sub.isEmpty
  | h :: t, sub => sub.isPrefixOf (h :: t) || containsSub t sub

/-- Does the URL string contain a mode query parameter? -/
def hasModeParam (url : String) : Bool :=
  containsSub url.toList ("mode=").toList

/-- Models JavaScript s.startsWith(p). -/
def jsStartsWith (s p : String) : Bool :=
  p.toList.isPrefixOf s.toList

/-- Models JavaScript s.slice(n). -/
def jsSlice (s : String) (n : Nat) : String :=
  String.mk (s.toList.drop n)

/-- Split a character list on every non-overlapping occurrence of two
consecutive newline characters, scanning left to right: the semantics
of the JavaScript buffer.split applied with a blank-line separator in
runPipeline. -/
def splitOnBlank : List Char → List (List Char)
  | [] => [[]]
  | '\n' :: '\n' :: rest => [] :: splitOnBlank rest
  | c :: rest =>
      match splitOnBlank rest with
      | [] => [[c]]
      | h :: t => (c :: h) :: t

/-- Models JavaScript buffer.split on a blank-line separator. -/
def jsSplitDouble (s : String) : List String :=
  (splitOnBlank s.toList).map String.mk

/-! ## frontend/src/lib/api.js — URL construction -/

/-- The date-range argument threaded through the api.js helpers:
optional start and end strings (the JavaScript object may carry either
or both). -/
structure DateRange where
  start : Option String
  stop : Option String
deriving DecidableEq

/-- Models _dateParams(dateRange) from api.js: empty for a missing
range, otherwise the start and end query fragments for the fields that
are present and non-empty (JavaScript falsiness). -/
def dateParams : Option DateRange → String
  | none => ""
  | some r =>
      (match r.start with
        | some s => if s = "" then "" else "&start=" ++ s
        | none => "") ++
      (match r.stop with
        | some e => if e = "" then "" else "&end=" ++ e
        | none => "")

/-- The mode query fragment each api.js helper appends: empty when the
mode is null or the empty string (JavaScript falsiness), otherwise the
separator followed by the mode parameter. -/
def modeSuffix (sep : String) : Option String → String
  | some m => if m = "" then "" else sep ++ "mode=" ++ m
  | none => ""

/-- Models getSentimentLatest(symbol, hours, dateRange, mode): the path
it passes to fetchJSON. -/
def getSentimentLatestUrl (symbol : String) (hours : Nat)
    (dateRange : Option DateRange) (mode : Option String) : String :=
  "/sentiment/latest/" ++ symbol ++ "?hours=" ++ toString hours ++
    dateParams dateRange ++ modeSuffix ("&") mode

/-- Models getDivergenceLatest(symbol, mode): the path it passes to
fetchJSON. -/
def getDivergenceLatestUrl (symbol : String) (mode : Option String) : String :=
  "/divergence/latest/" ++ symbol ++ modeSuffix ("?") mode

/-- Models getDivergenceTimeseries(symbol, hours, dateRange, mode). -/
def getDivergenceTimeseriesUrl (symbol : String) (hours : Nat)
    (dateRange : Option DateRange) (mode : Option String) : String :=
  "/divergence/timeseries/" ++ symbol ++ "?hours=" ++ toString hours ++
    dateParams dateRange ++ modeSuffix ("&") mode

/-- Models getOverview(): the function takes no parameters and always
requests the bare overview path. -/
def getOverviewUrl : String := "/divergence/overview"

/-- Models getIndexSummary(hours, dateRange): the function takes no
mode parameter. -/
def getIndexSummaryUrl (hours : Nat) (dateRange : Option DateRange) : String :=
  "/divergence/index-summary?hours=" ++ toString hours ++ dateParams dateRange

/-- The pair of requests OverviewPage issues on load:
Promise.all([getOverview(mode), getIndexSummary(dateRange.hours,
dateRange, mode)]).  The extra mode arguments are dropped by
JavaScript call semantics because getOverview and getIndexSummary
declare no mode parameter, so the resulting URLs do not depend on the
page's mode. -/
def overviewPageRequests (_mode : String) (hours : Nat)
    (dateRange : Option DateRange) : List String :=
  [getOverviewUrl, getIndexSummaryUrl hours dateRange]

/-! ## frontend/src/lib/utils.js -/

/-- Models directionColor(direction) from lib/utils.js. -/
def directionColor (direction : String) : String :=
  if direction = "hype" then "text-red-500"
  else if direction = "panic" then "text-blue-500"
  else "text-neutral-400"

/-- Models directionBg(direction) from lib/utils.js. -/
def directionBg (direction : String) : String :=
  if direction = "hype" then "bg-red-500/10 border-red-500/30"
  else if direction = "panic" then "bg-blue-500/10 border-blue-500/30"
  else "bg-neutral-500/10 border-neutral-500/30"

/-- Models confidenceLabel(score) from lib/utils.js. -/
def confidenceLabel (score : Rat) : String :=
  if score ≥ 7/10 then "High"
  else if score ≥ 2/5 then "Medium"
  else "Low"

/-! ## Divergence direction and chart thresholds -/

/-- Modelled from the spec: the Divergence and Confidence Engine's
direction classification (the backend engine is not under src/):
divergence ≥ +1.5 gives hype, divergence ≤ −1.5 gives panic, otherwise
neutral. -/
def classifyDirection (divergence : Rat) : String :=
  if divergence ≥ 3/2 then "hype"
  else if divergence ≤ -(3/2) then "panic"
  else "neutral"

/-- The y-coordinate of the hype reference line drawn by
DivergenceChart (ReferenceLine y equal to 1.5). -/
def hypeLineY : Rat := 3/2

/-- The y-coordinate of the panic reference line drawn by
DivergenceChart (ReferenceLine y equal to -1.5). -/
def panicLineY : Rat := -(3/2)

/-! ## Confidence score and ConfidenceCard display -/

/-- Clamp a rational to the unit interval. -/
def clamp01 (x : Rat) : Rat := max 0 (min 1 x)

/-- Modelled from the spec: confidence equals 0.4 times model
certainty plus 0.3 times data sufficiency plus 0.3 times signal
consistency, each sub-score clamped to the unit interval before
weighting (the backend engine is not under src/). -/
def confidenceScore (mc ds sc : Rat) : Rat :=
  (2/5) * clamp01 mc + (3/10) * clamp01 ds + (3/10) * clamp01 sc

/-- The percentage ConfidenceCard displays: (conf * 100).toFixed(0),
i.e. the confidence times one hundred, rounded to the nearest
integer. -/
def confidencePercent (conf : Rat) : Int := round (conf * 100)

/-! ## Usage bars (usage page and ApiLimitBanner) -/

/-- Models the bar-fill computation in UsageBar (usage/page.jsx):
pct = limit > 0 ? Math.min(100, (used / limit) * 100) : 0. -/
def usageBarPct (used limit : Rat) : Rat :=
  if 0 < limit then min 100 (used / limit * 100) else 0

/-- Models the progress-bar width in ApiLimitBanner:
Math.min(100, svc.percent_used). -/
def bannerBarWidth (percentUsed : Rat) : Rat := min 100 percentUsed

/-- Models the BLOCKED marker in UsageBar: the label is rendered
exactly when the blocked field is true. -/
def usageBarShowsBlocked (blocked : Bool) : Bool := blocked

/-! ## runPipeline (api.js) — SSE consumption -/

/-- A parsed server-sent event as runPipeline hands it to the
callbacks: the JSON shape step, message, progress, optional done (an
absent done field is falsy, modelled as false). -/
structure SseEvent where
  step : String
  message : String
  progress : Int
  done : Bool
deriving DecidableEq

/-- One callback invocation performed by runPipeline: an onProgress
call carrying an event, or an onDone call carrying the event it was
invoked with (none for the bare end-of-stream invocation). -/
inductive CallbackCall where
  | progressCb (e : SseEvent)
  | doneCb (d : Option SseEvent)
deriving DecidableEq

/-- Models the body of the for-loop over lines in runPipeline: a line
with the data marker is JSON-parsed; on success onProgress fires and,
when the event's done field is truthy, onDone fires with the event; a
parse failure is swallowed by the empty catch; any other line is
ignored. -/
def handleSseLine (parse : String → Option SseEvent) (line : String) :
    List CallbackCall :=
  if jsStartsWith line ("data: ") then
    match parse (jsSlice line 6) with
    | some e =>
        CallbackCall.progressCb e ::
          (if e.done then [CallbackCall.doneCb (some e)] else [])
    | none => []
  else []

/-- Models the recursive read() loop of runPipeline over the decoded
chunks of the response body: each chunk is appended to the buffer, the
buffer is split on blank lines, the final partial piece becomes the
new buffer, the complete lines are handled in order, and when the
reader reports end of stream onDone fires once with no argument. -/
def sseRead (parse : String → Option SseEvent) :
    List String → String → List CallbackCall
  | [], _ => [CallbackCall.doneCb none]
  | chunk :: rest, buffer =>
      (jsSplitDouble (buffer ++ chunk)).dropLast.flatMap (handleSseLine parse) ++
        sseRead parse rest ((jsSplitDouble (buffer ++ chunk)).getLast?.getD "")

/-- The complete lines the read() loop of runPipeline extracts from
the chunk sequence, in order (the trailing partial piece of each split
is carried over as the next buffer). -/
def sseLines : List String → String → List String
  | [], _ => []
  | chunk :: rest, buffer =>
      (jsSplitDouble (buffer ++ chunk)).dropLast ++
        sseLines rest ((jsSplitDouble (buffer ++ chunk)).getLast?.getD "")

/-- The events of the well-formed data lines of the stream, in stream
order: lines carrying the data marker whose payload parses. -/
def wellFormedEvents (parse : String → Option SseEvent)
    (lines : List String) : List SseEvent :=
  lines.filterMap (fun l =>
    if jsStartsWith l ("data: ") then parse (jsSlice l 6) else none)

/-- The arguments of the onProgress invocations in a callback trace,
in order. -/
def progressCalls (calls : List CallbackCall) : List SseEvent :=
  calls.filterMap (fun c =>
    match c with
    | CallbackCall.progressCb e => some e
    | _ => none)

/-- The arguments of the onDone invocations in a callback trace, in
order. -/
def doneCalls (calls : List CallbackCall) : List (Option SseEvent) :=
  calls.filterMap (fun c =>
    match c with
    | CallbackCall.doneCb d => some d
    | _ => none)

/-! ## FetchButton.jsx — client pipeline-run state -/

/-- One row of the FetchButton step log. -/
structure FetchStep where
  step : String
  message : String
  progress : Int
deriving DecidableEq

/-- The React state of FetchButton: running, progress, steps,
currentMsg, error, showLog. -/
structure FetchState where
  running : Bool
  progress : Int
  steps : List FetchStep
  currentMsg : String
  error : Option String
  showLog : Bool
deriving DecidableEq

/-- The initial useState values of FetchButton. -/
def initialFetchState : FetchState :=
  { running := false, progress := 0, steps := [], currentMsg := "",
    error := none, showLog := false }

/-- Models the state resets at the top of handleFetch. -/
def handleFetchStart (s : FetchState) : FetchState :=
  { s with
    running := true,
    progress := 0,
    steps := [],
    currentMsg := "Starting pipeline...",
    error := none,
    showLog := true }

/-- Models the onProgress callback handleFetch passes to runPipeline:
it mirrors the event's progress and message into the state and appends
a step-log row. -/
def onProgressHandler (s : FetchState) (d : SseEvent) : FetchState :=
  { s with
    progress := d.progress,
    currentMsg := d.message,
    steps := s.steps ++
      [{ step := d.step, message := d.message, progress := d.progress }] }

/-- Models the onDone callback handleFetch passes to runPipeline: it
clears running, sets the displayed progress to exactly 100 and shows
the completion message (falling back when the event or its message is
missing). -/
def onDoneHandler (s : FetchState) (d : Option SseEvent) : FetchState :=
  { s with
    running := false,
    progress := 100,
    currentMsg :=
      match d with
      | some e => if e.message = "" then "Pipeline complete!" else e.message
      | none => "Pipeline complete!" }

/-- Models the onError callback handleFetch passes to runPipeline. -/
def onErrorHandler (s : FetchState) (msg : Option String) : FetchState :=
  { s with
    running := false,
    error := some (match msg with
      | some m => if m = "" then "Pipeline failed" else m
      | none => "Pipeline failed"),
    currentMsg := "Pipeline failed" }

/-- Models a click on the fetch trigger: the button carries
disabled={running}, so a click while a run is in progress does
nothing, and otherwise handleFetch starts the run. -/
def fetchButtonClick (s : FetchState) : FetchState :=
  if s.running then s else handleFetchStart s

/-- The successive FetchButton states while the onProgress callback
consumes a stream of events, starting from the handleFetch reset. -/
def fetchRunStates (events : List SseEvent) : List FetchState :=
  List.scanl onProgressHandler (handleFetchStart initialFetchState) events

/-! ## The spec's progress-stream contract (backend emitter) -/

/-- Non-decreasing check on a list of progress values. -/
def progressesMono : List Int → Bool
  | [] => true
  | [_] => true
  | a :: b :: t => decide (a ≤ b) && progressesMono (b :: t)

/-- Modelled from the spec: the event stream the backend pipeline
emitter (routes_pipeline.py, not under src/) produces — progress
events pushed in step order with percent_complete in the range 0 to
100, monotonically non-decreasing, reaching 100 only on the terminal
event, and the stream terminated by a final event whose done flag is
true. -/
def isSpecProgressStream (events : List SseEvent) : Bool :=
  progressesMono (events.map (fun e => e.progress)) &&
  events.all (fun e => decide (0 ≤ e.progress) && decide (e.progress ≤ 100)) &&
  events.dropLast.all (fun e => !(e.progress == 100)) &&
  (match events.getLast? with
   | some e => e.done && (e.progress == 100)
   | none => false)

/-! ## Orchestrator admission control (backend) -/

/-- Modelled from the spec: whether a PipelineRun is currently active
system-wide (the backend orchestrator is not under src/). -/
inductive OrchestratorState where
  | idle
  | busy
deriving DecidableEq

/-- Modelled from the spec: admission control of the Ingestion
Orchestrator — a run request when idle starts the single active run; a
request while one is in progress is rejected and no second run
starts. -/
def requestRun : OrchestratorState → OrchestratorState × Bool
  | OrchestratorState.idle => (OrchestratorState.busy, true)
  | OrchestratorState.busy => (OrchestratorState.busy, false)

/-! ## Quota read response and usage page -/

/-- The per-service entry of the quota-read response. -/
structure ServiceUsage where
  used : Int
  limit : Int
  remaining : Int
  blocked : Bool
deriving DecidableEq

/-- Modelled from the spec: the quota-read response (the backend usage
endpoint is not under src/) — per service an entry with used, limit,
remaining and blocked for the current date, plus a derived any_blocked
flag. -/
structure UsageResponse where
  date : String
  services : List (String × ServiceUsage)
  anyBlocked : Bool
deriving DecidableEq

/-- Modelled from the spec: building the quota-read response for a
date from the per-service entries; any_blocked is derived as the
disjunction of the per-service blocked flags. -/
def usageResponseOf (date : String)
    (services : List (String × ServiceUsage)) : UsageResponse :=
  { date := date, services := services,
    anyBlocked := services.any (fun kv => kv.2.blocked) }

/-- One value of the JSON object the usage page receives. -/
inductive UsageEntryVal where
  | svc (u : ServiceUsage)
  | dateVal (d : String)
  | flagVal (b : Bool)
deriving DecidableEq

/-- The Object.entries view of the quota-read response the usage page
iterates over: the date key, the per-service keys, and the any_blocked
key. -/
def usageEntries (r : UsageResponse) : List (String × UsageEntryVal) :=
  ("date", UsageEntryVal.dateVal r.date) ::
    r.services.map (fun kv => (kv.1, UsageEntryVal.svc kv.2)) ++
    [("any_blocked", UsageEntryVal.flagVal r.anyBlocked)]

/-- Models the services filter in UsagePage:
Object.entries(summary).filter(([k]) => k !== "date" && k !==
"any_blocked"). -/
def usagePageServices (entries : List (String × UsageEntryVal)) :
    List (String × UsageEntryVal) :=
  entries.filter (fun kv => !(kv.1 == "date") && !(kv.1 == "any_blocked"))

/-! ## Sentiment velocity (backend) and the velocity chart -/

/-- Arithmetic mean of a list of sentiment scores (zero for the empty
list). -/
def windowMean (records : List Rat) : Rat :=
  if records.length = 0 then 0 else records.sum / records.length

/-- Modelled from the spec: the minimum record count below which a
window is treated as having insufficient data. -/
def minRecordCount : Nat := 5

/-- Modelled from the spec: the velocity of one window pair (the
backend velocity computer is not under src/) — none when either the
current or the previous window holds fewer than the minimum record
count, otherwise the absolute difference of the two window means
scaled by the fixed normalization constant 50 (a full swing from −1 to
+1 saturates at 100). -/
def windowVelocity (cur prev : List Rat) : Option Rat :=
  if cur.length < minRecordCount ∨ prev.length < minRecordCount then none
  else some (min 100 (|windowMean cur - windowMean prev| * 50))

/-- Modelled from the spec: the reported per-symbol velocity — the
maximum across the window pairs that have sufficient data, defaulting
to the 50 baseline when no window does. -/
def sentimentVelocity (windows : List (List Rat × List Rat)) : Rat :=
  match windows.filterMap (fun w => windowVelocity w.1 w.2) with
  | [] => 50
  | v :: vs => vs.foldl max v

/-- Models the chart-row mapping in SentimentVelocityChart.jsx:
velocity: d.sentiment_velocity ?? 50 — a null or missing velocity
renders as the 50 baseline. -/
def chartVelocity (sentimentVelocityField : Option Rat) : Rat :=
  sentimentVelocityField.getD 50

/-- A concrete event parser used to exercise the SSE consumer on
concrete streams: payload A parses to a mid-run progress event,
payload B to the terminal done event, anything else fails to parse. -/
def demoParse (s : String) : Option SseEvent :=
  if s = "A" then
    some { step := "telegram", message := "ok", progress := 30, done := false }
  else if s = "B" then
    some { step := "done", message := "Pipeline complete", progress := 100,
           done := true }
  else none

/-! ## Claim theorems -/

/-- Claim C1 (code bug): the claim says every client query with a
specified mode carries mode=m in its URL, in particular getOverview
and getIndexSummary.  The code drops the mode: OverviewPage passes a
mode argument to both, but their api.js signatures declare no mode
parameter, so the overview and index-summary URLs carry no mode
parameter at all, while the other endpoints do append one. -/
theorem c1_mode_dropped_on_overview :
    overviewPageRequests ("live") 168 none =
      [getOverviewUrl, getIndexSummaryUrl 168 none] ∧
    hasModeParam getOverviewUrl = false ∧
    hasModeParam (getIndexSummaryUrl 168 none) = false ∧
    hasModeParam (getDivergenceTimeseriesUrl ("TCS") 72 none (some ("live"))) = true ∧
    hasModeParam (getSentimentLatestUrl ("TCS") 24 none (some ("live"))) = true := by
  refine ⟨rfl, ?_, ?_, ?_, ?_⟩ <;> decide

/-- Claim C4: direction is hype exactly when the divergence is at
least 1.5, panic exactly when it is at most -1.5, neutral otherwise;
the divergence chart draws its reference lines at 1.5 and -1.5, and
directionColor maps any direction other than hype and panic to the
neutral style. -/
theorem c4_direction_thresholds (d : Rat) (s : String)
    (hs1 : s ≠ "hype") (hs2 : s ≠ "panic") :
    (classifyDirection d = "hype" ↔ 3/2 ≤ d) ∧
    (classifyDirection d = "panic" ↔ d ≤ -(3/2)) ∧
    (classifyDirection d = "neutral" ↔ (-(3/2) < d ∧ d < 3/2)) ∧
    hypeLineY = 3/2 ∧ panicLineY = -(3/2) ∧
    directionColor s = "text-neutral-400" := by
  unfold classifyDirection directionColor hypeLineY panicLineY
  refine ⟨?_, ?_, ?_, rfl, rfl, ?_⟩
  · split_ifs with h1 h2
    · exact iff_of_true rfl h1
    · exact iff_of_false (by decide) h1
    · exact iff_of_false (by decide) h1
  · split_ifs with h1 h2
    · exact iff_of_false (by decide) (fun h => by
        have := lt_of_lt_of_le (by norm_num : -(3/2 : Rat) < 3/2) h1
        linarith)
    · exact iff_of_true rfl h2
    · exact iff_of_false (by decide) h2
  · split_ifs with h1 h2
    · exact iff_of_false (by decide) (fun h => by linarith [h.2])
    · exact iff_of_false (by decide) (fun h => by linarith [h.1])
    · exact iff_of_true rfl ⟨lt_of_not_le h2, lt_of_not_le h1⟩
  · split_ifs with t1
    · exact absurd t1 hs1
    · rfl

/-- Witness for claim C4 at divergence 2 and direction neutral. -/
theorem c4_direction_thresholds_witness :
    directionColor ("neutral") = "text-neutral-400" :=
  (c4_direction_thresholds 2 ("neutral") (by decide) (by decide)).2.2.2.2.2

/-- Claim C6: the confidence score 0.4 mc + 0.3 ds + 0.3 sc with
clamped sub-scores always lies in the unit interval regardless of
input magnitude, and the percentage the confidence card displays lies
in the range 0 to 100. -/
theorem c6_confidence_bounds (mc ds sc : Rat) :
    0 ≤ confidenceScore mc ds sc ∧ confidenceScore mc ds sc ≤ 1 ∧
    0 ≤ confidencePercent (confidenceScore mc ds sc) ∧
    confidencePercent (confidenceScore mc ds sc) ≤ 100 := by
  have hb : ∀ x : Rat, 0 ≤ clamp01 x ∧ clamp01 x ≤ 1 := fun x =>
    ⟨le_max_left 0 _, max_le (by norm_num) (min_le_left 1 x)⟩
  obtain ⟨h1, h2⟩ := hb mc
  obtain ⟨h3, h4⟩ := hb ds
  obtain ⟨h5, h6⟩ := hb sc
  have hlo : 0 ≤ confidenceScore mc ds sc := by
    unfold confidenceScore; linarith
  have hhi : confidenceScore mc ds sc ≤ 1 := by
    unfold confidenceScore; linarith
  refine ⟨hlo, hhi, ?_, ?_⟩
  · unfold confidencePercent
    rw [round_eq]
    have : (0 : Rat) ≤ confidenceScore mc ds sc * 100 + 1/2 := by linarith
    exact Int.floor_nonneg.mpr this
  · unfold confidencePercent
    rw [round_eq]
    have h100 : confidenceScore mc ds sc * 100 + 1/2 ≤ (201 : Rat)/2 := by
      linarith
    calc ⌊confidenceScore mc ds sc * 100 + 1/2⌋
        ≤ ⌊(201 : Rat)/2⌋ := Int.floor_mono h100
      _ = 100 := by norm_num [Int.floor_eq_iff]

/-- Claim C10: the usage bar percentage is min(100, used/limit*100)
for a positive limit and 0 otherwise, so the division is guarded and
the width never exceeds 100; the dashboard banner clamps percent_used
to at most 100. -/
theorem c10_usage_clamp (used limit p : Rat) :
    (0 < limit → usageBarPct used limit = min 100 (used / limit * 100)) ∧
    (limit ≤ 0 → usageBarPct used limit = 0) ∧
    usageBarPct used limit ≤ 100 ∧
    bannerBarWidth p ≤ 100 := by
  unfold usageBarPct bannerBarWidth
  refine ⟨fun h => by rw [if_pos h], fun h => by rw [if_neg (not_lt.mpr h)],
    ?_, min_le_left _ _⟩
  split_ifs with h
  · exact min_le_left _ _
  · norm_num

/-- Witness for claim C10 at used 150, limit 100, percent_used 250. -/
theorem c10_usage_clamp_witness :
    usageBarPct 150 100 = min 100 (150 / 100 * 100) ∧
    usageBarPct 150 100 ≤ 100 ∧ bannerBarWidth 250 ≤ 100 := by
  have h := c10_usage_clamp 150 100 250
  exact ⟨h.1 (by norm_num), h.2.2.1, h.2.2.2⟩

/-- Claim C5 counterexample: 50 is not reserved strictly for the
no-data case — two windows of five records each, with mean sentiment 1
against mean sentiment 0, have sufficient data and different means,
yet the reported velocity is exactly 50. -/
theorem c5_fifty_not_reserved :
    sentimentVelocity [([1, 1, 1, 1, 1], [0, 0, 0, 0, 0])] = 50 ∧
    minRecordCount ≤ ([1, 1, 1, 1, 1] : List Rat).length ∧
    minRecordCount ≤ ([0, 0, 0, 0, 0] : List Rat).length ∧
    windowMean [1, 1, 1, 1, 1] ≠ windowMean ([0, 0, 0, 0, 0] : List Rat) := by
  have h1 : windowMean [1, 1, 1, 1, 1] = 1 := by norm_num [windowMean]
  have h2 : windowMean ([0, 0, 0, 0, 0] : List Rat) = 0 := by
    norm_num [windowMean]
  refine ⟨?_, by decide, by decide, by rw [h1, h2]; norm_num⟩
  have hcond : ¬ (([1, 1, 1, 1, 1] : List Rat).length < minRecordCount ∨
      ([0, 0, 0, 0, 0] : List Rat).length < minRecordCount) := by
    simp [minRecordCount]
  have hwv : windowVelocity [1, 1, 1, 1, 1] [0, 0, 0, 0, 0] = some 50 := by
    rw [windowVelocity, if_neg hcond, h1, h2]
    norm_num
  simp [sentimentVelocity, hwv]

/-- Claim C5 (amended): the reported velocity is 0 when the
current-window and previous-window means are equal and both windows
have sufficient data, and exactly 50 when either window has fewer than
the minimum record count; 50 is not strictly reserved for the no-data
case (an absolute mean shift of exactly 1 also yields 50); the
velocity chart renders a null or missing sentiment_velocity as the 50
baseline. -/
theorem c5_velocity_amended (cur prev : List Rat)
    (hc : minRecordCount ≤ cur.length) (hp : minRecordCount ≤ prev.length)
    (heq : windowMean cur = windowMean prev) :
    sentimentVelocity [(cur, prev)] = 0 ∧
    (∀ c2 p2 : List Rat,
      c2.length < minRecordCount ∨ p2.length < minRecordCount →
      sentimentVelocity [(c2, p2)] = 50) ∧
    chartVelocity none = 50 ∧
    (∀ v : Rat, chartVelocity (some v) = v) := by
  have hcond : ¬ (cur.length < minRecordCount ∨ prev.length < minRecordCount) := by
    push_neg
    exact ⟨hc, hp⟩
  refine ⟨?_, ?_, rfl, fun v => rfl⟩
  · have hwv : windowVelocity cur prev = some 0 := by
      rw [windowVelocity, if_neg hcond, heq]
      simp
    simp [sentimentVelocity, hwv]
  · intro c2 p2 h
    have hwv : windowVelocity c2 p2 = none := by
      rw [windowVelocity, if_pos h]
    simp [sentimentVelocity, hwv]

/-- Witness for the amended claim C5 on two equal five-record
windows. -/
theorem c5_velocity_amended_witness :
    sentimentVelocity [([0, 0, 0, 0, 0], [0, 0, 0, 0, 0])] = 0 ∧
    chartVelocity none = 50 := by
  have h := c5_velocity_amended [0, 0, 0, 0, 0] [0, 0, 0, 0, 0]
    (by decide) (by decide) rfl
  exact ⟨h.1, h.2.2.1⟩

/-! ### SSE structural lemmas shared by the runPipeline claims -/

/-- The read loop of runPipeline handles exactly the complete lines it
extracts from the chunk sequence, in order, and ends with the bare
end-of-stream onDone call. -/
theorem sseRead_eq_lines (parse : String → Option SseEvent) :
    ∀ (chunks : List String) (buffer : String),
    sseRead parse chunks buffer =
      (sseLines chunks buffer).flatMap (handleSseLine parse) ++
        [CallbackCall.doneCb none]
  | [], b => by simp [sseRead, sseLines]
  | c :: rest, b => by
      simp only [sseRead, sseLines, List.flatMap_append]
      rw [sseRead_eq_lines parse rest]
      rw [List.append_assoc]

/-- progressCalls distributes over trace concatenation. -/
theorem progressCalls_append (a b : List CallbackCall) :
    progressCalls (a ++ b) = progressCalls a ++ progressCalls b := by
  simp [progressCalls, List.filterMap_append]

/-- doneCalls distributes over trace concatenation. -/
theorem doneCalls_append (a b : List CallbackCall) :
    doneCalls (a ++ b) = doneCalls a ++ doneCalls b := by
  simp [doneCalls, List.filterMap_append]

/-- Handling one line produces exactly the onProgress call of its
well-formed event, if any. -/
theorem progressCalls_handleSseLine (parse : String → Option SseEvent)
    (l : String) :
    progressCalls (handleSseLine parse l) =
      (if jsStartsWith l ("data: ") then parse (jsSlice l 6) else none).toList := by
  rw [handleSseLine]
  split_ifs with h
  · cases hp : parse (jsSlice l 6) with
    | none => simp [progressCalls]
    | some e => cases hd : e.done <;> simp [progressCalls, hd]
  · simp [progressCalls]

/-- Handling one line produces exactly the onDone call of its
well-formed event when that event's done flag is set. -/
theorem doneCalls_handleSseLine (parse : String → Option SseEvent)
    (l : String) :
    doneCalls (handleSseLine parse l) =
      ((if jsStartsWith l ("data: ") then parse (jsSlice l 6)
          else none).toList.filter (fun e => e.done)).map some := by
  rw [handleSseLine]
  split_ifs with h
  · cases hp : parse (jsSlice l 6) with
    | none => simp [doneCalls]
    | some e => cases hd : e.done <;> simp [doneCalls, hd]
  · simp [doneCalls]

/-- Unfolding of wellFormedEvents on a cons cell. -/
theorem wellFormedEvents_cons (parse : String → Option SseEvent)
    (l : String) (t : List String) :
    wellFormedEvents parse (l :: t) =
      (if jsStartsWith l ("data: ") then parse (jsSlice l 6) else none).toList ++
        wellFormedEvents parse t := by
  simp only [wellFormedEvents, List.filterMap_cons]
  cases h : (if jsStartsWith l ("data: ") then parse (jsSlice l 6) else none) with
  | none => simp
  | some e => simp

/-- The onProgress calls of line-by-line handling are the well-formed
events in order. -/
theorem progressCalls_flatMap (parse : String → Option SseEvent) :
    ∀ lines : List String,
    progressCalls (lines.flatMap (handleSseLine parse)) =
      wellFormedEvents parse lines
  | [] => rfl
  | l :: t => by
      rw [List.flatMap_cons, progressCalls_append, progressCalls_handleSseLine,
        wellFormedEvents_cons, progressCalls_flatMap parse t]

/-- The onDone calls of line-by-line handling are exactly the
done-flagged well-formed events in order. -/
theorem doneCalls_flatMap (parse : String → Option SseEvent) :
    ∀ lines : List String,
    doneCalls (lines.flatMap (handleSseLine parse)) =
      ((wellFormedEvents parse lines).filter (fun e => e.done)).map some
  | [] => rfl
  | l :: t => by
      rw [List.flatMap_cons, doneCalls_append, doneCalls_handleSseLine,
        wellFormedEvents_cons, List.filter_append, List.map_append,
        doneCalls_flatMap parse t]

/-- Claim C2: for every pipeline run, runPipeline delivers each
well-formed data event of the stream to onProgress in stream order,
and invokes onDone at every event whose done field is true (plus the
final end-of-stream invocation), the terminal done event of a
spec-conformant stream included. -/
theorem c2_sse_delivery (parse : String → Option SseEvent)
    (chunks : List String) :
    progressCalls (sseRead parse chunks "") =
      wellFormedEvents parse (sseLines chunks "") ∧
    doneCalls (sseRead parse chunks "") =
      ((wellFormedEvents parse (sseLines chunks "")).filter
        (fun e => e.done)).map some ++ [none] := by
  rw [sseRead_eq_lines]
  constructor
  · rw [progressCalls_append, progressCalls_flatMap]
    simp [progressCalls]
  · rw [doneCalls_append, doneCalls_flatMap]
    simp [doneCalls]

/-- Claim C9: when the stream contains a done-flagged event and the
body then closes normally, onDone fires once per done-flagged event
plus once at end of stream — at least twice, so it is not guaranteed
to fire at most once per run — and a malformed data line contributes
no events while later lines are still processed. -/
theorem c9_on_done_twice (parse : String → Option SseEvent)
    (chunks pre post : List String) (l : String)
    (hl : jsStartsWith l ("data: ") = true)
    (hp : parse (jsSlice l 6) = none)
    (hd : (wellFormedEvents parse (sseLines chunks "")).filter
      (fun e => e.done) ≠ []) :
    2 ≤ (doneCalls (sseRead parse chunks "")).length ∧
    (doneCalls (sseRead parse chunks "")).length =
      ((wellFormedEvents parse (sseLines chunks "")).filter
        (fun e => e.done)).length + 1 ∧
    wellFormedEvents parse (pre ++ l :: post) =
      wellFormedEvents parse pre ++ wellFormedEvents parse post := by
  have hlen : (doneCalls (sseRead parse chunks "")).length =
      ((wellFormedEvents parse (sseLines chunks "")).filter
        (fun e => e.done)).length + 1 := by
    rw [sseRead_eq_lines, doneCalls_append, doneCalls_flatMap]
    simp [doneCalls]
  refine ⟨?_, hlen, ?_⟩
  · rw [hlen]
    have hpos : 0 < ((wellFormedEvents parse (sseLines chunks "")).filter
        (fun e => e.done)).length := List.length_pos.mpr hd
    omega
  · simp [wellFormedEvents, List.filterMap_append, List.filterMap_cons, hl, hp]

/-- Witness for claim C9 on a concrete three-line stream with one
malformed line and one done event. -/
theorem c9_on_done_twice_witness :
    2 ≤ (doneCalls (sseRead demoParse ["data: A\n\ndata: bad\n\ndata: B\n\n"] "")).length := by
  have h := c9_on_done_twice demoParse ["data: A\n\ndata: bad\n\ndata: B\n\n"]
    ["data: A"] ["data: B"] ("data: bad") (by decide) (by decide) (by decide)
  exact h.1

/-! ### Progress monotonicity lemmas for claim C3 -/

/-- The boolean monotonicity check agrees with chained order. -/
theorem progressesMono_iff : ∀ l : List Int,
    progressesMono l = true ↔ List.Chain' (fun a b => a ≤ b) l
  | [] => by simp [progressesMono]
  | [a] => by simp [progressesMono]
  | a :: b :: t => by
      rw [progressesMono]
      simp only [Bool.and_eq_true, decide_eq_true_eq]
      rw [progressesMono_iff (b :: t), List.chain'_cons]

/-- A monotone progress list bounded by 100 stays chained when 100 is
appended. -/
theorem chainLe_append_hundred : ∀ (x : Int) (l : List Int),
    progressesMono (x :: l) = true → (∀ p ∈ x :: l, p ≤ 100) →
    List.Chain' (fun a b => a ≤ b) ((x :: l) ++ [100])
  | x, [] => fun _ hub => by
      simp only [List.cons_append, List.nil_append]
      exact List.chain'_cons.mpr ⟨hub x (by simp), List.chain'_singleton 100⟩
  | x, b :: t => fun hm hub => by
      rw [progressesMono] at hm
      simp only [Bool.and_eq_true, decide_eq_true_eq] at hm
      have ih := chainLe_append_hundred b t hm.2
        (fun p hp => hub p (List.mem_cons_of_mem x hp))
      simp only [List.cons_append] at ih ⊢
      exact List.chain'_cons.mpr ⟨hm.1, ih⟩

/-- The displayed progress values along a run are the initial zero of
handleFetch followed by the event progresses. -/
theorem scanl_progress (s : FetchState) : ∀ events : List SseEvent,
    (List.scanl onProgressHandler s events).map (fun st => st.progress) =
      s.progress :: events.map (fun e => e.progress)
  | [] => by simp [List.scanl_nil]
  | e :: t => by
      rw [List.scanl_cons]
      simp only [List.cons_append, List.nil_append, List.map_cons]
      rw [scanl_progress (onProgressHandler s e) t]
      rfl

/-- Claim C3: for a spec-conformant progress stream the emitted
progress values are monotonically non-decreasing, equal 100 only on
the terminal event, and the terminal event carries 100; the client's
displayed progress trajectory (initial 0, then each event's progress,
then the completion value) is monotone, and the completion callback
sets the displayed progress to exactly 100. -/
theorem c3_progress_monotone (events : List SseEvent)
    (h : isSpecProgressStream events = true) :
    List.Chain' (fun a b => a ≤ b) (events.map (fun e => e.progress)) ∧
    (∀ e ∈ events.dropLast, e.progress ≠ 100) ∧
    events.getLast?.map (fun e => e.progress) = some 100 ∧
    List.Chain' (fun a b => a ≤ b)
      ((fetchRunStates events).map (fun st => st.progress) ++ [100]) ∧
    (∀ (s : FetchState) (d : Option SseEvent),
      (onDoneHandler s d).progress = 100) := by
  rw [isSpecProgressStream] at h
  simp only [Bool.and_eq_true] at h
  obtain ⟨⟨⟨hmono, hrange⟩, hdrop⟩, hlast⟩ := h
  refine ⟨(progressesMono_iff _).mp hmono, ?_, ?_, ?_, fun s d => rfl⟩
  · intro e he
    have := (List.all_eq_true.mp hdrop) e he
    simpa using this
  · cases hg : events.getLast? with
    | none => rw [hg] at hlast; simp at hlast
    | some e =>
        rw [hg] at hlast
        simp only [Bool.and_eq_true, beq_iff_eq] at hlast
        simp [hlast.2]
  · unfold fetchRunStates
    rw [scanl_progress]
    have hs : (handleFetchStart initialFetchState).progress = 0 := rfl
    rw [hs]
    have hub : ∀ p ∈ (0 : Int) :: events.map (fun e => e.progress), p ≤ 100 := by
      intro p hp
      rcases List.mem_cons.mp hp with h0 | hm
      · omega
      · obtain ⟨e, he, rfl⟩ := List.mem_map.mp hm
        have := (List.all_eq_true.mp hrange) e he
        simp only [Bool.and_eq_true, decide_eq_true_eq] at this
        exact this.2
    have hmono0 : progressesMono
        ((0 : Int) :: events.map (fun e => e.progress)) = true := by
      cases hev : events.map (fun e => e.progress) with
      | nil => simp [progressesMono]
      | cons p rest =>
          rw [progressesMono]
          simp only [Bool.and_eq_true, decide_eq_true_eq]
          constructor
          · have hpmem : p ∈ events.map (fun e => e.progress) := by
              rw [hev]; exact List.mem_cons_self p rest
            obtain ⟨e, he, hpe⟩ := List.mem_map.mp hpmem
            have := (List.all_eq_true.mp hrange) e he
            simp only [Bool.and_eq_true, decide_eq_true_eq] at this
            omega
          · rw [← hev]; exact hmono
    exact chainLe_append_hundred 0 (events.map (fun e => e.progress)) hmono0 hub

/-- Witness for claim C3 on a concrete two-event stream. -/
theorem c3_progress_monotone_witness :
    (onDoneHandler initialFetchState none).progress = 100 := by
  have h := c3_progress_monotone
    [{ step := "telegram", message := "ok", progress := 30, done := false },
     { step := "done", message := "Pipeline complete", progress := 100,
       done := true }]
    (by decide)
  exact h.2.2.2.2 initialFetchState none

/-! ### Usage page lemmas for claim C7 -/

/-- The usage page filter keeps every per-service entry whose key is
neither the date key nor the any_blocked key. -/
theorem usagePageFilter_keeps_services
    (services : List (String × ServiceUsage))
    (hk : ∀ kv ∈ services, kv.1 ≠ "date" ∧ kv.1 ≠ "any_blocked") :
    (services.map (fun kv => (kv.1, UsageEntryVal.svc kv.2))).filter
      (fun kv => !(kv.1 == "date") && !(kv.1 == "any_blocked")) =
      services.map (fun kv => (kv.1, UsageEntryVal.svc kv.2)) := by
  induction services with
  | nil => rfl
  | cons kv t ih =>
      obtain ⟨h1, h2⟩ := hk kv (List.mem_cons_self kv t)
      simp only [List.map_cons, List.filter_cons]
      have hb1 : (kv.1 == "date") = false := beq_eq_false_iff_ne.mpr h1
      have hb2 : (kv.1 == "any_blocked") = false := beq_eq_false_iff_ne.mpr h2
      rw [hb1, hb2]
      simp only [Bool.not_false, Bool.and_self, if_true]
      rw [ih (fun kv2 hm => hk kv2 (List.mem_cons_of_mem kv hm))]

/-- Claim C7: the quota-read response carries per service an entry
with used, limit, remaining and blocked plus a derived any_blocked
flag; the usage page renders exactly one bar per service entry,
excluding exactly the date and any_blocked keys, and a service is
marked BLOCKED exactly when its blocked field is true. -/
theorem c7_quota_response (date : String)
    (services : List (String × ServiceUsage))
    (hk : ∀ kv ∈ services, kv.1 ≠ "date" ∧ kv.1 ≠ "any_blocked") :
    usagePageServices (usageEntries (usageResponseOf date services)) =
      services.map (fun kv => (kv.1, UsageEntryVal.svc kv.2)) ∧
    (usagePageServices (usageEntries (usageResponseOf date services))).length =
      services.length ∧
    (usageResponseOf date services).anyBlocked =
      services.any (fun kv => kv.2.blocked) ∧
    (∀ b : Bool, usageBarShowsBlocked b = true ↔ b = true) := by
  have hmain : usagePageServices (usageEntries (usageResponseOf date services)) =
      services.map (fun kv => (kv.1, UsageEntryVal.svc kv.2)) := by
    unfold usagePageServices usageEntries usageResponseOf
    dsimp only
    simp [List.filter_cons, List.filter_append,
      usagePageFilter_keeps_services services hk]
  refine ⟨hmain, ?_, rfl, fun b => Iff.rfl⟩
  rw [hmain, List.length_map]

/-- Witness for claim C7 on a concrete two-service response. -/
theorem c7_quota_response_witness :
    usagePageServices (usageEntries (usageResponseOf ("2025-01-01")
      [("telegram", ⟨10, 100, 90, false⟩), ("gemini", ⟨50, 50, 0, true⟩)])) =
    [("telegram", UsageEntryVal.svc ⟨10, 100, 90, false⟩),
     ("gemini", UsageEntryVal.svc ⟨50, 50, 0, true⟩)] := by
  have h := c7_quota_response ("2025-01-01")
    [("telegram", ⟨10, 100, 90, false⟩), ("gemini", ⟨50, 50, 0, true⟩)]
    (by decide)
  exact h.1

/-- Claim C8: at most one pipeline run is active from the client's
view — the fetch trigger is disabled while running, so a click during
a run does not start a second one, an idle click starts a run, and the
run terminates through the completion and error callbacks; the
spec-modelled orchestrator rejects a run request issued while a run is
in progress, so two concurrent requests never execute in parallel. -/
theorem c8_single_active_run (s : FetchState) (d : Option SseEvent)
    (o : OrchestratorState) (hr : s.running = true) :
    fetchButtonClick s = s ∧
    (∀ t : FetchState, t.running = false →
      (fetchButtonClick t).running = true) ∧
    (onDoneHandler s d).running = false ∧
    (onErrorHandler s none).running = false ∧
    requestRun OrchestratorState.busy = (OrchestratorState.busy, false) ∧
    (requestRun (requestRun o).1).2 = false := by
  refine ⟨?_, ?_, rfl, rfl, rfl, ?_⟩
  · unfold fetchButtonClick
    rw [if_pos hr]
  · intro t ht
    unfold fetchButtonClick
    rw [if_neg (by simp [ht])]
    rfl
  · cases o <;> rfl

/-- Witness for claim C8 on the state right after a run starts. -/
theorem c8_single_active_run_witness :
    fetchButtonClick (handleFetchStart initialFetchState) =
      handleFetchStart initialFetchState := by
  have h := c8_single_active_run (handleFetchStart initialFetchState) none
    OrchestratorState.idle rfl
  exact h.1
